import Mathlib

/-!
Shallow embedding of `auto_blogger.py` (a sequential fetch → rewrite →
publish pipeline with a persisted dedup list), together with proofs of the
specification's testable properties.

Modelling conventions:
* External I/O boundaries are explicit parameters: the JSON API response and
  the parsed RSS feed are `Except Unit _` values (`.error` = the request or
  parse raised), the Gemini rewrite and the Blogger publish calls are oracles
  indexed by the loop-iteration counter, and the Blogger service handle is a
  `Bool` (`false` = `get_service()` returned `None`).
* Python's in-place list mutation in `save_posted_id` is made explicit: the
  function returns both the caller's list after the call (the result of
  `current_ids.append(post_id)`) and the list written to the file (truncated
  to the last 200 entries when longer).
* The dedup file is an `Option (List String)` (`none` = the file does not
  exist); a `writes` trace records every file write the run performs.
-/

/-- An article record as built by both fetch functions (a Python dict with
fields `unique_id`, `title`, `content`, `link`, `date`, `source`). -/
structure Article where
  unique_id : String
  title : String
  content : String
  link : String
  date : Option String
  source : String
  deriving Repr, DecidableEq

/-- One item of the JSON API envelope's `data` list, with fields `id`,
`category_name`, `title`, `content`, `original_news_link` and `date`. -/
structure JsonItem where
  id : Nat
  category_name : String
  title : String
  content : String
  original_news_link : String
  date : Option String
  deriving Repr, DecidableEq

/-- The JSON API envelope: a `success` flag and a `data` list. -/
structure JsonResponse where
  success : Bool
  data : List JsonItem
  deriving Repr, DecidableEq

/-- A parsed RSS feed entry. `summary` is `none` when the entry has no
`summary` attribute; `content0` models `entry.content[0].value`, the
fallback body used in that case. -/
structure FeedEntry where
  link : String
  title : String
  summary : Option String
  content0 : String
  deriving Repr, DecidableEq

/-- The pair returned by a successful `rewrite_with_gemini` call
(`title` and the final `content` body). -/
structure RewrittenPost where
  title : String
  content : String
  deriving Repr, DecidableEq

/-- `MAX_POSTS_PER_RUN = 999`. -/
def MAX_POSTS_PER_RUN : Nat := 999

/-- `required_categories` from `fetch_json_news`. -/
def required_categories : List String := ["सेयर बजार", "अर्थतन्त्र"]

/-- The article dict `fetch_json_news` appends for a kept item. -/
def json_item_to_article (item : JsonItem) : Article :=
  { unique_id := "json_" ++ toString item.id
    title := item.title
    content := item.content
    link := item.original_news_link
    date := item.date
    source := "bajarkochirfar.com" }

/-- `fetch_json_news(posted_ids)`: on a request/parse error or a non-success
envelope return `[]`; otherwise keep each item whose `category_name` is in
the two-category allow-list and whose derived `unique_id` is not in
`posted_ids`. -/
def fetch_json_news (posted_ids : List String) (resp : Except Unit JsonResponse) :
    List Article :=
  match resp with
  | .error _ => []
  | .ok envl =>
    if envl.success = false then []
    else
      envl.data.filterMap (fun item =>
        if item.category_name ∈ required_categories ∧
            ("json_" ++ toString item.id) ∉ posted_ids then
          some (json_item_to_article item)
        else none)

/-- The article dict `fetch_rss_news` appends for a kept entry. -/
def feed_entry_to_article (entry : FeedEntry) : Article :=
  { unique_id := "rss_" ++ entry.link
    title := entry.title
    content := entry.summary.getD entry.content0
    link := entry.link
    date := none
    source := "nepsestock.com" }

/-- `fetch_rss_news(posted_ids)`: on a fetch/parse error return `[]`;
otherwise keep each entry whose `unique_id` (`"rss_" ++ link`) is not in
`posted_ids`. -/
def fetch_rss_news (posted_ids : List String) (feed : Except Unit (List FeedEntry)) :
    List Article :=
  match feed with
  | .error _ => []
  | .ok entries =>
    entries.filterMap (fun entry =>
      if ("rss_" ++ entry.link) ∉ posted_ids then
        some (feed_entry_to_article entry)
      else none)

/-- `get_posted_ids()`: the file's JSON array when the file exists,
else `[]`. -/
def get_posted_ids (dbFile : Option (List String)) : List String :=
  dbFile.getD []

/-- `save_posted_id(post_id, current_ids)`.  Python appends to the caller's
list in place, then rebinds a local to the last 200 entries when the list is
longer than 200 and writes that local to the file; the function returns
`None`.  The embedding returns the pair (caller's list after the call, list
written to the file). -/
def save_posted_id (post_id : String) (current_ids : List String) :
    List String × List String :=
  (current_ids ++ [post_id],
   if 200 < (current_ids ++ [post_id]).length then
     (current_ids ++ [post_id]).drop ((current_ids ++ [post_id]).length - 200)
   else current_ids ++ [post_id])

/-- The last 200 elements of a list (the whole list when it has at most
200 elements); used to state properties of the persisted file. -/
def last200 (l : List String) : List String :=
  l.drop (l.length - 200)

/-- The mutable state of the `run()` loop: the in-memory `posted_ids` list,
the dedup file's current contents, the `count` of successful posts, and
traces of attempted (rewrite invoked) ids, successfully published ids, and
every list written to the file. -/
structure RunState where
  posted_ids : List String
  dbFile : Option (List String)
  count : Nat
  attempted : List String
  published : List String
  writes : List (List String)
  deriving Repr, DecidableEq

/-- The `for article in all_articles` loop of `run()`: stop when
`count >= cap`; otherwise call the rewrite oracle, on `none` skip; on a
rewritten post call the publish oracle, on `false` skip; on `true` call
`save_posted_id` (mutating `posted_ids` and writing the file) and increment
`count`.  `i` is the absolute iteration index feeding the oracles. -/
def processArticles (cap : Nat) (rewriteRes : Nat → Option RewrittenPost)
    (publishRes : Nat → Bool) : Nat → List Article → RunState → RunState
  | _, [], st => st
  | i, article :: rest, st =>
    if cap ≤ st.count then st
    else
      match rewriteRes i with
      | none =>
        processArticles cap rewriteRes publishRes (i + 1) rest
          { st with attempted := st.attempted ++ [article.unique_id] }
      | some _post =>
        if publishRes i then
          processArticles cap rewriteRes publishRes (i + 1) rest
            { posted_ids := (save_posted_id article.unique_id st.posted_ids).1
              dbFile := some (save_posted_id article.unique_id st.posted_ids).2
              count := st.count + 1
              attempted := st.attempted ++ [article.unique_id]
              published := st.published ++ [article.unique_id]
              writes := st.writes ++ [(save_posted_id article.unique_id st.posted_ids).2] }
        else
          processArticles cap rewriteRes publishRes (i + 1) rest
            { st with attempted := st.attempted ++ [article.unique_id] }

/-- The loop state just after `posted_ids = get_posted_ids()`. -/
def initRunState (dbInit : Option (List String)) : RunState :=
  { posted_ids := get_posted_ids dbInit
    dbFile := dbInit
    count := 0
    attempted := []
    published := []
    writes := [] }

/-- The observable outcome of `run()`: whether it aborted at authentication,
which sources were fetched, and the final loop state. -/
structure RunResult where
  aborted : Bool
  fetched_json : Bool
  fetched_rss : Bool
  final : RunState
  deriving Repr, DecidableEq

/-- `run()`: abort with no side effects when `get_service()` yields no
service; otherwise load the dedup file, fetch from the JSON API and the RSS
feed (JSON articles first), and run the processing loop over the
concatenated queue with cap `MAX_POSTS_PER_RUN`. -/
def run (service_ok : Bool) (dbInit : Option (List String))
    (jsonResp : Except Unit JsonResponse) (feedResp : Except Unit (List FeedEntry))
    (rewriteRes : Nat → Option RewrittenPost) (publishRes : Nat → Bool) :
    RunResult :=
  if service_ok then
    let posted_ids := get_posted_ids dbInit
    let all_articles :=
      fetch_json_news posted_ids jsonResp ++ fetch_rss_news posted_ids feedResp
    { aborted := false
      fetched_json := true
      fetched_rss := true
      final := processArticles MAX_POSTS_PER_RUN rewriteRes publishRes 0
        all_articles (initRunState dbInit) }
  else
    { aborted := true
      fetched_json := false
      fetched_rss := false
      final :=
        { posted_ids := []
          dbFile := dbInit
          count := 0
          attempted := []
          published := []
          writes := [] } }


def entryA1 : FeedEntry :=
  { link := "http://a/1", title := "t1", summary := some "s1", content0 := "c1" }

def entryA2 : FeedEntry :=
  { link := "http://a/2", title := "t2", summary := some "s2", content0 := "c2" }

def item7 : JsonItem :=
  { id := 7, category_name := "सेयर बजार", title := "t7", content := "c7",
    original_news_link := "l7", date := some "d7" }

def item8 : JsonItem :=
  { id := 8, category_name := "खेलकुद", title := "t8", content := "c8",
    original_news_link := "l8", date := some "d8" }

def rwAll : Nat → Option RewrittenPost := fun _ => some { title := "T", content := "C" }

def pbAll : Nat → Bool := fun _ => true

def rwFailFirst : Nat → Option RewrittenPost :=
  fun n => if n = 0 then none else some { title := "T", content := "C" }

def dupResp : Except Unit JsonResponse := .ok { success := true, data := [item7, item7] }

def ids200 : List String := (List.range 200).map Nat.repr

def bigFeed : List FeedEntry :=
  (List.range 201).map
    (fun i => { link := Nat.repr i, title := "t", summary := some "s", content0 := "c" })

def feedA12 : Except Unit (List FeedEntry) := .ok [entryA1, entryA2]

def respJ78 : Except Unit JsonResponse := .ok { success := true, data := [item7, item8] }

def pbNone : Nat → Bool := fun _ => false

theorem save_posted_id_fst (post_id : String) (l : List String) :
    (save_posted_id post_id l).1 = l ++ [post_id] := rfl

theorem save_posted_id_written (post_id : String) (l : List String) :
    (save_posted_id post_id l).2 = last200 (save_posted_id post_id l).1 := by
  simp only [save_posted_id, last200]
  split
  · rfl
  · next h => rw [Nat.sub_eq_zero_of_le (by omega), List.drop_zero]

theorem save_posted_id_written_length (post_id : String) (l : List String) :
    (save_posted_id post_id l).2.length ≤ 200 := by
  simp only [save_posted_id]
  split
  · next h => rw [List.length_drop]; omega
  · next h => omega

theorem fetch_rss_news_origin (posted : List String) (feed : Except Unit (List FeedEntry))
    (a : Article) (ha : a ∈ fetch_rss_news posted feed) :
    ∃ entries entry, feed = .ok entries ∧ entry ∈ entries ∧
      feed_entry_to_article entry = a ∧ a.unique_id ∉ posted := by
  cases feed with
  | error e => simp [fetch_rss_news] at ha
  | ok entries =>
    simp only [fetch_rss_news, List.mem_filterMap] at ha
    obtain ⟨entry, hmem, hsome⟩ := ha
    by_cases h : ("rss_" ++ entry.link) ∉ posted
    · rw [if_pos h] at hsome
      have heq := Option.some.inj hsome
      refine ⟨entries, entry, rfl, hmem, heq, ?_⟩
      rw [← heq]
      simpa [feed_entry_to_article] using h
    · rw [if_neg h] at hsome
      exact absurd hsome (Option.noConfusion)

theorem fetch_json_news_origin (posted : List String) (resp : Except Unit JsonResponse)
    (a : Article) (ha : a ∈ fetch_json_news posted resp) :
    ∃ envl item, resp = .ok envl ∧ item ∈ envl.data ∧
      item.category_name ∈ required_categories ∧
      json_item_to_article item = a ∧ a.unique_id ∉ posted := by
  cases resp with
  | error e => simp [fetch_json_news] at ha
  | ok envl =>
    by_cases hs : envl.success = false
    · simp [fetch_json_news, hs] at ha
    · simp only [fetch_json_news] at ha
      rw [if_neg hs, List.mem_filterMap] at ha
      obtain ⟨item, hmem, hsome⟩ := ha
      by_cases h : item.category_name ∈ required_categories ∧
          ("json_" ++ toString item.id) ∉ posted
      · rw [if_pos h] at hsome
        have heq := Option.some.inj hsome
        refine ⟨envl, item, rfl, hmem, h.1, heq, ?_⟩
        rw [← heq]
        simpa [json_item_to_article] using h.2
      · rw [if_neg h] at hsome
        exact absurd hsome (Option.noConfusion)

theorem processArticles_nil {cap : Nat} {rewriteRes : Nat → Option RewrittenPost}
    {publishRes : Nat → Bool} {i : Nat} {st : RunState} :
    processArticles cap rewriteRes publishRes i [] st = st := rfl

theorem processArticles_stop {cap : Nat} {rewriteRes : Nat → Option RewrittenPost}
    {publishRes : Nat → Bool} {i : Nat} {a : Article} {rest : List Article}
    {st : RunState} (h : cap ≤ st.count) :
    processArticles cap rewriteRes publishRes i (a :: rest) st = st := by
  simp [processArticles, h]

theorem processArticles_skip_rewrite {cap : Nat} {rewriteRes : Nat → Option RewrittenPost}
    {publishRes : Nat → Bool} {i : Nat} {a : Article} {rest : List Article}
    {st : RunState} (hcap : ¬ cap ≤ st.count) (hrw : rewriteRes i = none) :
    processArticles cap rewriteRes publishRes i (a :: rest) st =
      processArticles cap rewriteRes publishRes (i + 1) rest
        { st with attempted := st.attempted ++ [a.unique_id] } := by
  simp [processArticles, hcap, hrw]

theorem processArticles_skip_publish {cap : Nat} {rewriteRes : Nat → Option RewrittenPost}
    {publishRes : Nat → Bool} {i : Nat} {a : Article} {rest : List Article}
    {st : RunState} {post : RewrittenPost} (hcap : ¬ cap ≤ st.count)
    (hrw : rewriteRes i = some post) (hpb : publishRes i = false) :
    processArticles cap rewriteRes publishRes i (a :: rest) st =
      processArticles cap rewriteRes publishRes (i + 1) rest
        { st with attempted := st.attempted ++ [a.unique_id] } := by
  simp [processArticles, hcap, hrw, hpb]

theorem processArticles_publish {cap : Nat} {rewriteRes : Nat → Option RewrittenPost}
    {publishRes : Nat → Bool} {i : Nat} {a : Article} {rest : List Article}
    {st : RunState} {post : RewrittenPost} (hcap : ¬ cap ≤ st.count)
    (hrw : rewriteRes i = some post) (hpb : publishRes i = true) :
    processArticles cap rewriteRes publishRes i (a :: rest) st =
      processArticles cap rewriteRes publishRes (i + 1) rest
        { posted_ids := (save_posted_id a.unique_id st.posted_ids).1
          dbFile := some (save_posted_id a.unique_id st.posted_ids).2
          count := st.count + 1
          attempted := st.attempted ++ [a.unique_id]
          published := st.published ++ [a.unique_id]
          writes := st.writes ++ [(save_posted_id a.unique_id st.posted_ids).2] } := by
  simp [processArticles, hcap, hrw, hpb]

theorem processArticles_delta (cap : Nat) (rewriteRes : Nat → Option RewrittenPost)
    (publishRes : Nat → Bool) (articles : List Article) :
    ∀ (i : Nat) (st : RunState),
    ∃ d : List String,
      (processArticles cap rewriteRes publishRes i articles st).published
        = st.published ++ d ∧
      (processArticles cap rewriteRes publishRes i articles st).posted_ids
        = st.posted_ids ++ d ∧
      List.Sublist d (articles.map fun x => x.unique_id) := by
  induction articles with
  | nil =>
    intro i st
    exact ⟨[], by simp [processArticles_nil], by simp [processArticles_nil],
      List.nil_sublist _⟩
  | cons a rest ih =>
    intro i st
    by_cases hcap : cap ≤ st.count
    · exact ⟨[], by simp [processArticles_stop hcap],
        by simp [processArticles_stop hcap], List.nil_sublist _⟩
    · cases hrw : rewriteRes i with
      | none =>
        obtain ⟨d, h1, h2, h3⟩ :=
          ih (i + 1) { st with attempted := st.attempted ++ [a.unique_id] }
        rw [processArticles_skip_rewrite hcap hrw]
        exact ⟨d, h1, h2, List.Sublist.cons _ h3⟩
      | some post =>
        cases hpb : publishRes i with
        | false =>
          obtain ⟨d, h1, h2, h3⟩ :=
            ih (i + 1) { st with attempted := st.attempted ++ [a.unique_id] }
          rw [processArticles_skip_publish hcap hrw hpb]
          exact ⟨d, h1, h2, List.Sublist.cons _ h3⟩
        | true =>
          obtain ⟨d, h1, h2, h3⟩ :=
            ih (i + 1)
              { posted_ids := (save_posted_id a.unique_id st.posted_ids).1
                dbFile := some (save_posted_id a.unique_id st.posted_ids).2
                count := st.count + 1
                attempted := st.attempted ++ [a.unique_id]
                published := st.published ++ [a.unique_id]
                writes := st.writes ++ [(save_posted_id a.unique_id st.posted_ids).2] }
          rw [processArticles_publish hcap hrw hpb]
          refine ⟨a.unique_id :: d, ?_, ?_, List.Sublist.cons₂ _ h3⟩
          · rw [h1]
            simp
          · rw [h2]
            simp [save_posted_id_fst]

theorem processArticles_dbFile (cap : Nat) (rewriteRes : Nat → Option RewrittenPost)
    (publishRes : Nat → Bool) (articles : List Article) :
    ∀ (i : Nat) (st : RunState),
      ((processArticles cap rewriteRes publishRes i articles st).dbFile = st.dbFile ∧
        (processArticles cap rewriteRes publishRes i articles st).posted_ids
          = st.posted_ids) ∨
      (processArticles cap rewriteRes publishRes i articles st).dbFile
        = some (last200 (processArticles cap rewriteRes publishRes i articles st).posted_ids) := by
  induction articles with
  | nil => intro i st; left; exact ⟨rfl, rfl⟩
  | cons a rest ih =>
    intro i st
    by_cases hcap : cap ≤ st.count
    · rw [processArticles_stop hcap]; left; exact ⟨rfl, rfl⟩
    · cases hrw : rewriteRes i with
      | none =>
        rw [processArticles_skip_rewrite hcap hrw]
        exact ih (i + 1) _
      | some post =>
        cases hpb : publishRes i with
        | false =>
          rw [processArticles_skip_publish hcap hrw hpb]
          exact ih (i + 1) _
        | true =>
          rw [processArticles_publish hcap hrw hpb]
          rcases ih (i + 1)
              { posted_ids := (save_posted_id a.unique_id st.posted_ids).1
                dbFile := some (save_posted_id a.unique_id st.posted_ids).2
                count := st.count + 1
                attempted := st.attempted ++ [a.unique_id]
                published := st.published ++ [a.unique_id]
                writes := st.writes ++ [(save_posted_id a.unique_id st.posted_ids).2] }
            with ⟨hfile, hids⟩ | hlast
          · right
            rw [hfile, hids, save_posted_id_written]
          · right; exact hlast

theorem processArticles_writes (cap : Nat) (rewriteRes : Nat → Option RewrittenPost)
    (publishRes : Nat → Bool) (articles : List Article) :
    ∀ (i : Nat) (st : RunState) (w : List String),
      w ∈ (processArticles cap rewriteRes publishRes i articles st).writes →
      w ∈ st.writes ∨ w.length ≤ 200 := by
  induction articles with
  | nil => intro i st w hw; left; exact hw
  | cons a rest ih =>
    intro i st w hw
    by_cases hcap : cap ≤ st.count
    · rw [processArticles_stop hcap] at hw; left; exact hw
    · cases hrw : rewriteRes i with
      | none =>
        rw [processArticles_skip_rewrite hcap hrw] at hw
        exact ih (i + 1) { st with attempted := st.attempted ++ [a.unique_id] } w hw
      | some post =>
        cases hpb : publishRes i with
        | false =>
          rw [processArticles_skip_publish hcap hrw hpb] at hw
          exact ih (i + 1) { st with attempted := st.attempted ++ [a.unique_id] } w hw
        | true =>
          rw [processArticles_publish hcap hrw hpb] at hw
          rcases ih (i + 1) _ w hw with hmem | hlen
          · rcases List.mem_append.1 hmem with hmem2 | hmem2
            · left; exact hmem2
            · right
              rw [List.mem_singleton.1 hmem2]
              exact save_posted_id_written_length _ _
          · right; exact hlen

theorem processArticles_count_le (cap : Nat) (rewriteRes : Nat → Option RewrittenPost)
    (publishRes : Nat → Bool) (articles : List Article) :
    ∀ (i : Nat) (st : RunState), st.count ≤ cap →
      (processArticles cap rewriteRes publishRes i articles st).count ≤ cap := by
  induction articles with
  | nil => intro i st h; exact h
  | cons a rest ih =>
    intro i st h
    by_cases hcap : cap ≤ st.count
    · rw [processArticles_stop hcap]; exact h
    · cases hrw : rewriteRes i with
      | none =>
        rw [processArticles_skip_rewrite hcap hrw]
        exact ih (i + 1) _ h
      | some post =>
        cases hpb : publishRes i with
        | false =>
          rw [processArticles_skip_publish hcap hrw hpb]
          exact ih (i + 1) _ h
        | true =>
          rw [processArticles_publish hcap hrw hpb]
          exact ih (i + 1) _ (by show st.count + 1 ≤ cap; omega)

theorem processArticles_all_success (cap : Nat) (rewriteRes : Nat → Option RewrittenPost)
    (publishRes : Nat → Bool) (hrw : ∀ n, rewriteRes n ≠ none)
    (hpb : ∀ n, publishRes n = true) (articles : List Article) :
    ∀ (i : Nat) (st : RunState), st.count ≤ cap →
      (processArticles cap rewriteRes publishRes i articles st).attempted
        = st.attempted ++ ((articles.take (cap - st.count)).map fun x => x.unique_id) ∧
      (processArticles cap rewriteRes publishRes i articles st).count
        = st.count + min (cap - st.count) articles.length := by
  induction articles with
  | nil =>
    intro i st h
    constructor
    · simp [processArticles_nil]
    · simp [processArticles_nil]
  | cons a rest ih =>
    intro i st h
    by_cases hcap : cap ≤ st.count
    · have hc0 : cap - st.count = 0 := by omega
      rw [processArticles_stop hcap]
      constructor
      · simp [hc0]
      · simp [hc0]
    · cases hrwi : rewriteRes i with
      | none => exact absurd hrwi (hrw i)
      | some post =>
        have hpbi := hpb i
        rw [processArticles_publish hcap hrwi hpbi]
        obtain ⟨k, hk⟩ : ∃ k, cap - st.count = k + 1 := ⟨cap - st.count - 1, by omega⟩
        obtain ⟨ha, hc⟩ := ih (i + 1)
            { posted_ids := (save_posted_id a.unique_id st.posted_ids).1
              dbFile := some (save_posted_id a.unique_id st.posted_ids).2
              count := st.count + 1
              attempted := st.attempted ++ [a.unique_id]
              published := st.published ++ [a.unique_id]
              writes := st.writes ++ [(save_posted_id a.unique_id st.posted_ids).2] }
            (by show st.count + 1 ≤ cap; omega)
        constructor
        · rw [ha]
          show st.attempted ++ [a.unique_id]
                ++ (rest.take (cap - (st.count + 1))).map (fun x => x.unique_id)
              = st.attempted
                ++ ((a :: rest).take (cap - st.count)).map (fun x => x.unique_id)
          have hk2 : cap - (st.count + 1) = k := by omega
          rw [hk2, hk, List.take_succ_cons, List.map_cons, List.append_assoc]
          rfl
        · rw [hc]
          show st.count + 1 + min (cap - (st.count + 1)) rest.length
              = st.count + min (cap - st.count) (a :: rest).length
          simp only [List.length_cons]
          omega

theorem run_true (dbInit : Option (List String)) (jsonResp : Except Unit JsonResponse)
    (feedResp : Except Unit (List FeedEntry)) (rewriteRes : Nat → Option RewrittenPost)
    (publishRes : Nat → Bool) :
    run true dbInit jsonResp feedResp rewriteRes publishRes =
      { aborted := false
        fetched_json := true
        fetched_rss := true
        final := processArticles MAX_POSTS_PER_RUN rewriteRes publishRes 0
          (fetch_json_news (get_posted_ids dbInit) jsonResp
            ++ fetch_rss_news (get_posted_ids dbInit) feedResp)
          (initRunState dbInit) } := rfl


theorem processArticles_file_after (cap : Nat) (rewriteRes : Nat → Option RewrittenPost)
    (publishRes : Nat → Bool) (queue : List Article) (dbInit : Option (List String))
    (h : 200 < (processArticles cap rewriteRes publishRes 0 queue (initRunState dbInit)).published.length) :
    (processArticles cap rewriteRes publishRes 0 queue (initRunState dbInit)).dbFile
      = some (last200 (get_posted_ids dbInit
          ++ (processArticles cap rewriteRes publishRes 0 queue (initRunState dbInit)).published)) ∧
    (last200 (get_posted_ids dbInit
        ++ (processArticles cap rewriteRes publishRes 0 queue (initRunState dbInit)).published)).length
      = 200 ∧
    ∀ w ∈ (processArticles cap rewriteRes publishRes 0 queue (initRunState dbInit)).writes,
      w.length ≤ 200 := by
  obtain ⟨d, h1, h2, h3⟩ :=
    processArticles_delta cap rewriteRes publishRes queue 0 (initRunState dbInit)
  have hpub : (processArticles cap rewriteRes publishRes 0 queue (initRunState dbInit)).published = d := by
    simpa [initRunState] using h1
  have hids : (processArticles cap rewriteRes publishRes 0 queue (initRunState dbInit)).posted_ids
      = get_posted_ids dbInit ++ d := by
    simpa [initRunState] using h2
  rw [hpub] at h
  refine ⟨?_, ?_, ?_⟩
  · rcases processArticles_dbFile cap rewriteRes publishRes queue 0 (initRunState dbInit)
      with ⟨hfile, hsame⟩ | hlast
    · exfalso
      have hgd : get_posted_ids dbInit ++ d = get_posted_ids dbInit := by
        rw [← hids]; simpa [initRunState] using hsame
      have hlen := congrArg List.length hgd
      rw [List.length_append] at hlen
      omega
    · rw [hpub, ← hids]
      exact hlast
  · rw [hpub]
    simp only [last200, List.length_drop, List.length_append]
    omega
  · intro w hw
    rcases processArticles_writes cap rewriteRes publishRes queue 0 (initRunState dbInit) w hw
      with hmem | hlen
    · simp [initRunState] at hmem
    · exact hlen



/-- C1: with a dedup set already containing an id, neither adapter re-emits an
article with that id; concretely, with dedup set `["rss_http://a/1"]` and feed
links `http://a/1`, `http://a/2`, the feed adapter returns exactly the article
with id `rss_http://a/2`. -/
theorem c1_dedup_excludes_seen :
    (∀ (posted : List String) (feed : Except Unit (List FeedEntry)) (a : Article),
        a ∈ fetch_rss_news posted feed → a.unique_id ∉ posted) ∧
    (∀ (posted : List String) (resp : Except Unit JsonResponse) (a : Article),
        a ∈ fetch_json_news posted resp → a.unique_id ∉ posted) ∧
    (fetch_rss_news ["rss_http://a/1"] feedA12).map (fun a => a.unique_id)
      = ["rss_http://a/2"] := by
  refine ⟨?_, ?_, ?_⟩
  · intro posted feed a ha
    obtain ⟨_, _, _, _, _, h⟩ := fetch_rss_news_origin posted feed a ha
    exact h
  · intro posted resp a ha
    obtain ⟨_, _, _, _, _, _, h⟩ := fetch_json_news_origin posted resp a ha
    exact h
  · decide

theorem c1_dedup_excludes_seen_witness :
    (feed_entry_to_article entryA2).unique_id ∉ ["rss_http://a/1"] :=
  c1_dedup_excludes_seen.1 ["rss_http://a/1"] feedA12
    (feed_entry_to_article entryA2) (by decide)

/-- C7: every article the API adapter outputs originates from a response item
whose category is in the two-category allow-list; concretely, for items with
categories `सेयर बजार` (allowed) and `खेलकुद` (not allowed) only `json_7` is
returned. -/
theorem c7_category_filter :
    (∀ (posted : List String) (resp : Except Unit JsonResponse) (a : Article),
        a ∈ fetch_json_news posted resp →
        ∃ envl item, resp = .ok envl ∧ item ∈ envl.data ∧
          item.category_name ∈ required_categories ∧ json_item_to_article item = a) ∧
    (fetch_json_news [] respJ78).map (fun a => a.unique_id) = ["json_7"] := by
  refine ⟨?_, ?_⟩
  · intro posted resp a ha
    obtain ⟨envl, item, hresp, hmem, hcat, heq, _⟩ := fetch_json_news_origin posted resp a ha
    exact ⟨envl, item, hresp, hmem, hcat, heq⟩
  · decide

theorem c7_category_filter_witness :
    ∃ envl item, respJ78 = .ok envl ∧ item ∈ envl.data ∧
      item.category_name ∈ required_categories ∧
      json_item_to_article item = json_item_to_article item7 :=
  c7_category_filter.1 [] respJ78 (json_item_to_article item7) (by decide)


/-- C3: when the rewrite succeeds but the publish call fails, the iteration
leaves `posted_ids`, the dedup file, the write trace, the published trace and
the counter untouched and the loop continues with the remaining articles. -/
theorem c3_publish_failure_no_dedup_update (cap i : Nat)
    (rewriteRes : Nat → Option RewrittenPost) (publishRes : Nat → Bool)
    (article : Article) (rest : List Article) (st : RunState) (post : RewrittenPost)
    (hcap : st.count < cap) (hrw : rewriteRes i = some post)
    (hpb : publishRes i = false) :
    processArticles cap rewriteRes publishRes i (article :: rest) st =
      processArticles cap rewriteRes publishRes (i + 1) rest
        { st with attempted := st.attempted ++ [article.unique_id] } ∧
    ({ st with attempted := st.attempted ++ [article.unique_id] } : RunState).posted_ids
      = st.posted_ids ∧
    ({ st with attempted := st.attempted ++ [article.unique_id] } : RunState).dbFile
      = st.dbFile ∧
    ({ st with attempted := st.attempted ++ [article.unique_id] } : RunState).writes
      = st.writes ∧
    ({ st with attempted := st.attempted ++ [article.unique_id] } : RunState).published
      = st.published :=
  ⟨processArticles_skip_publish (by omega) hrw hpb, rfl, rfl, rfl, rfl⟩

theorem c3_publish_failure_no_dedup_update_witness :
    (processArticles 5 rwAll pbNone 0 [feed_entry_to_article entryA1] (initRunState none) =
      processArticles 5 rwAll pbNone 1 []
        { initRunState none with
            attempted := (initRunState none).attempted
              ++ [(feed_entry_to_article entryA1).unique_id] } ∧
    ({ initRunState none with
        attempted := (initRunState none).attempted
          ++ [(feed_entry_to_article entryA1).unique_id] } : RunState).posted_ids
      = (initRunState none).posted_ids ∧
    ({ initRunState none with
        attempted := (initRunState none).attempted
          ++ [(feed_entry_to_article entryA1).unique_id] } : RunState).dbFile
      = (initRunState none).dbFile ∧
    ({ initRunState none with
        attempted := (initRunState none).attempted
          ++ [(feed_entry_to_article entryA1).unique_id] } : RunState).writes
      = (initRunState none).writes ∧
    ({ initRunState none with
        attempted := (initRunState none).attempted
          ++ [(feed_entry_to_article entryA1).unique_id] } : RunState).published
      = (initRunState none).published) :=
  c3_publish_failure_no_dedup_update 5 0 rwAll pbNone (feed_entry_to_article entryA1) []
    (initRunState none) { title := "T", content := "C" } (by decide) rfl rfl

/-- C4 counterexample: with cap 1 and a queue of 2 articles whose first
rewrite fails, the loop attempts 2 articles, not exactly 1. -/
theorem c4_cap_counterexample :
    (processArticles 1 rwFailFirst pbAll 0
        [feed_entry_to_article entryA1, feed_entry_to_article entryA2]
        (initRunState none)).attempted.length = 2 ∧
    ¬ (processArticles 1 rwFailFirst pbAll 0
        [feed_entry_to_article entryA1, feed_entry_to_article entryA2]
        (initRunState none)).attempted.length = 1 := by decide

/-- C4 amended: the run cap bounds successful publishes, not attempts; the
count never exceeds the cap, and when every rewrite and publish succeeds and
the queue is longer than the cap, exactly the first `cap` articles are
attempted. -/
theorem c4_cap_bounds_successes (cap : Nat) (articles : List Article)
    (dbInit : Option (List String)) :
    (∀ (rewriteRes : Nat → Option RewrittenPost) (publishRes : Nat → Bool),
        (processArticles cap rewriteRes publishRes 0 articles
            (initRunState dbInit)).count ≤ cap) ∧
    (∀ (rewriteRes : Nat → Option RewrittenPost) (publishRes : Nat → Bool),
        (∀ n, rewriteRes n ≠ none) → (∀ n, publishRes n = true) →
        cap < articles.length →
        (processArticles cap rewriteRes publishRes 0 articles
            (initRunState dbInit)).attempted
          = ((articles.take cap).map fun x => x.unique_id) ∧
        (articles.take cap).length = cap ∧
        (processArticles cap rewriteRes publishRes 0 articles
            (initRunState dbInit)).count = cap) := by
  constructor
  · intro rewriteRes publishRes
    exact processArticles_count_le cap rewriteRes publishRes articles 0 _ (Nat.zero_le cap)
  · intro rewriteRes publishRes hr hp hlen
    obtain ⟨ha, hc⟩ := processArticles_all_success cap rewriteRes publishRes hr hp
      articles 0 (initRunState dbInit) (Nat.zero_le cap)
    refine ⟨?_, ?_, ?_⟩
    · rw [ha]
      simp [initRunState]
    · rw [List.length_take]
      omega
    · rw [hc]
      simp [initRunState]
      omega

set_option maxRecDepth 4000 in
/-- C5 counterexample: at a 200-entry dedup list, the list the caller
continues with (201 entries, mutated in place) differs from the truncated
sequence persisted to the file (200 entries); `save_posted_id` also returns
`None` in the source, so no sequence is returned at all. -/
theorem c5_save_counterexample :
    (save_posted_id "x" ids200).1.length = 201 ∧
    (save_posted_id "x" ids200).2.length = 200 ∧
    (save_posted_id "x" ids200).1 ≠ (save_posted_id "x" ids200).2 := by decide

/-- C5 amended: `save_posted_id` appends the id to the caller's list by
in-place mutation (returning no value), persists the last 200 entries of the
appended list, and leaves the caller holding the full untruncated list. -/
theorem c5_save_amended (post_id : String) (current_ids : List String) :
    (save_posted_id post_id current_ids).1 = current_ids ++ [post_id] ∧
    (save_posted_id post_id current_ids).2 = last200 (current_ids ++ [post_id]) ∧
    (save_posted_id post_id current_ids).2.length
      = min (current_ids.length + 1) 200 := by
  refine ⟨rfl, ?_, ?_⟩
  · rw [save_posted_id_written, save_posted_id_fst]
  · rw [save_posted_id_written, save_posted_id_fst]
    simp only [last200, List.length_drop, List.length_append, List.length_singleton]
    omega

/-- C10: at a dedup list with at least 200 entries, a save leaves the caller
with all previous entries plus the new id, while the file receives exactly
the last 200 entries of that grown list. -/
theorem c10_save_truncates_only_file (post_id : String) (current_ids : List String)
    (h : 200 ≤ current_ids.length) :
    (save_posted_id post_id current_ids).1 = current_ids ++ [post_id] ∧
    (save_posted_id post_id current_ids).1.length = current_ids.length + 1 ∧
    (save_posted_id post_id current_ids).2
      = last200 ((save_posted_id post_id current_ids).1) ∧
    (save_posted_id post_id current_ids).2.length = 200 := by
  refine ⟨rfl, ?_, save_posted_id_written post_id current_ids, ?_⟩
  · rw [save_posted_id_fst]
    simp
  · rw [save_posted_id_written, save_posted_id_fst]
    simp only [last200, List.length_drop, List.length_append, List.length_singleton]
    omega

set_option maxRecDepth 4000 in
theorem c10_save_truncates_only_file_witness :
    (save_posted_id "x" ids200).1 = ids200 ++ ["x"] ∧
    (save_posted_id "x" ids200).1.length = ids200.length + 1 ∧
    (save_posted_id "x" ids200).2 = last200 ((save_posted_id "x" ids200).1) ∧
    (save_posted_id "x" ids200).2.length = 200 :=
  c10_save_truncates_only_file "x" ids200 (by decide)

/-- C9: when authentication yields no service, the run aborts with no fetch,
no processing and the dedup file untouched. -/
theorem c9_auth_failure_aborts (dbInit : Option (List String))
    (jsonResp : Except Unit JsonResponse) (feedResp : Except Unit (List FeedEntry))
    (rewriteRes : Nat → Option RewrittenPost) (publishRes : Nat → Bool) :
    run false dbInit jsonResp feedResp rewriteRes publishRes =
      { aborted := true
        fetched_json := false
        fetched_rss := false
        final :=
          { posted_ids := []
            dbFile := dbInit
            count := 0
            attempted := []
            published := []
            writes := [] } } := rfl

/-- C8: an erroring source yields the empty queue from its adapter while the
other source's articles are still fetched and processed. -/
theorem c8_source_isolation :
    (∀ (posted : List String) (e : Unit), fetch_rss_news posted (.error e) = []) ∧
    (∀ (posted : List String) (e : Unit), fetch_json_news posted (.error e) = []) ∧
    (∀ (dbInit : Option (List String)) (jsonResp : Except Unit JsonResponse)
        (rewriteRes : Nat → Option RewrittenPost) (publishRes : Nat → Bool),
        (run true dbInit jsonResp (.error ()) rewriteRes publishRes).final =
          processArticles MAX_POSTS_PER_RUN rewriteRes publishRes 0
            (fetch_json_news (get_posted_ids dbInit) jsonResp) (initRunState dbInit)) ∧
    (∀ (dbInit : Option (List String)) (feedResp : Except Unit (List FeedEntry))
        (rewriteRes : Nat → Option RewrittenPost) (publishRes : Nat → Bool),
        (run true dbInit (.error ()) feedResp rewriteRes publishRes).final =
          processArticles MAX_POSTS_PER_RUN rewriteRes publishRes 0
            (fetch_rss_news (get_posted_ids dbInit) feedResp) (initRunState dbInit)) := by
  refine ⟨fun _ _ => rfl, fun _ _ => rfl, ?_, ?_⟩
  · intro dbInit jsonResp rewriteRes publishRes
    rw [run_true]
    rw [show fetch_rss_news (get_posted_ids dbInit) (Except.error ()) = [] from rfl,
      List.append_nil]
  · intro dbInit feedResp rewriteRes publishRes
    rfl

/-- C6 counterexample: a single JSON response carrying two items with the same
numeric id (both in an allowed category) makes the run append `json_7` to the
dedup store twice. -/
theorem c6_double_append_counterexample :
    (run true none dupResp (.error ()) rwAll pbAll).final.posted_ids
      = ["json_7", "json_7"] ∧
    (run true none dupResp (.error ()) rwAll pbAll).final.published.count "json_7"
      = 2 := by decide

/-- C6 amended: no id present in the dedup set at fetch time is appended
during the run, and when the fetched queue carries pairwise-distinct ids no
id is appended twice; only a source response yielding two items with the same
id (as in the counterexample) can double-append. -/
theorem c6_no_readd_within_run (dbInit : Option (List String))
    (jsonResp : Except Unit JsonResponse) (feedResp : Except Unit (List FeedEntry))
    (rewriteRes : Nat → Option RewrittenPost) (publishRes : Nat → Bool) :
    (∀ id ∈ get_posted_ids dbInit,
        id ∉ (run true dbInit jsonResp feedResp rewriteRes publishRes).final.published) ∧
    (((fetch_json_news (get_posted_ids dbInit) jsonResp
          ++ fetch_rss_news (get_posted_ids dbInit) feedResp).map
        fun a => a.unique_id).Nodup →
      (run true dbInit jsonResp feedResp rewriteRes publishRes).final.published.Nodup) := by
  obtain ⟨d, h1, h2, h3⟩ := processArticles_delta MAX_POSTS_PER_RUN rewriteRes publishRes
    (fetch_json_news (get_posted_ids dbInit) jsonResp
      ++ fetch_rss_news (get_posted_ids dbInit) feedResp) 0 (initRunState dbInit)
  have hpub : (run true dbInit jsonResp feedResp rewriteRes publishRes).final.published
      = d := by
    rw [run_true]
    simpa [initRunState] using h1
  constructor
  · intro id hid hmem
    rw [hpub] at hmem
    have hqueue := h3.subset hmem
    obtain ⟨a, hq, hauid⟩ := List.mem_map.1 hqueue
    rcases List.mem_append.1 hq with hj | hr
    · obtain ⟨_, _, _, _, _, _, hnot⟩ :=
        fetch_json_news_origin (get_posted_ids dbInit) jsonResp a hj
      rw [hauid] at hnot
      exact hnot hid
    · obtain ⟨_, _, _, _, _, hnot⟩ :=
        fetch_rss_news_origin (get_posted_ids dbInit) feedResp a hr
      rw [hauid] at hnot
      exact hnot hid
  · intro hnodup
    rw [hpub]
    exact List.Nodup.sublist h3 hnodup

theorem c6_no_readd_within_run_witness :
    ("x" ∉ (run true (some ["x"]) (.error ()) (.error ()) rwAll pbAll).final.published) ∧
    (run true (some ["x"]) (.error ()) (.error ()) rwAll pbAll).final.published.Nodup :=
  ⟨(c6_no_readd_within_run (some ["x"]) (.error ()) (.error ()) rwAll pbAll).1 "x"
      (by decide),
    (c6_no_readd_within_run (some ["x"]) (.error ()) (.error ()) rwAll pbAll).2
      (by decide)⟩

/-- C2: whenever a run performs more than 200 successful publishes, the dedup
file afterwards holds exactly the last 200 ids of the full append-order
sequence (prior ids then this run's published ids), and every file write of
the run holds at most 200 entries. -/
theorem c2_bounded_store (dbInit : Option (List String))
    (jsonResp : Except Unit JsonResponse) (feedResp : Except Unit (List FeedEntry))
    (rewriteRes : Nat → Option RewrittenPost) (publishRes : Nat → Bool)
    (h : 200 < (run true dbInit jsonResp feedResp rewriteRes publishRes).final.published.length) :
    (run true dbInit jsonResp feedResp rewriteRes publishRes).final.dbFile
      = some (last200 (get_posted_ids dbInit
          ++ (run true dbInit jsonResp feedResp rewriteRes publishRes).final.published)) ∧
    (last200 (get_posted_ids dbInit
        ++ (run true dbInit jsonResp feedResp rewriteRes publishRes).final.published)).length
      = 200 ∧
    ∀ w ∈ (run true dbInit jsonResp feedResp rewriteRes publishRes).final.writes,
      w.length ≤ 200 :=
  processArticles_file_after MAX_POSTS_PER_RUN rewriteRes publishRes
    (fetch_json_news (get_posted_ids dbInit) jsonResp
      ++ fetch_rss_news (get_posted_ids dbInit) feedResp) dbInit h

set_option maxRecDepth 40000 in
theorem c2_bounded_store_witness :
    (run true none (.error ()) (.ok bigFeed) rwAll pbAll).final.dbFile
      = some (last200 (get_posted_ids none
          ++ (run true none (.error ()) (.ok bigFeed) rwAll pbAll).final.published)) ∧
    (last200 (get_posted_ids none
        ++ (run true none (.error ()) (.ok bigFeed) rwAll pbAll).final.published)).length
      = 200 ∧
    ∀ w ∈ (run true none (.error ()) (.ok bigFeed) rwAll pbAll).final.writes,
      w.length ≤ 200 :=
  c2_bounded_store none (.error ()) (.ok bigFeed) rwAll pbAll (by decide)
